import Mathlib

/-!
Shallow embedding of the doozer Go client (`src/client.go`): the multiplexed
call protocol on one connection (tag allocation, the callback table, the read
loop, cancellation) and the cluster session (address pool, failover, retry).

Machine integers: Go `int32` tags are modelled as `Int` with explicit
wraparound (`inc32`).  Go channels (`chan *R`) are modelled by sink
identifiers (`Sink := Nat`); a `nil` channel entry in the callback map is the
`CbEntry.reserved` placeholder.  Transport and marshalling failures, and the
value received from a channel, are supplied by explicit oracles, since the
Go code obtains them from I/O and concurrent goroutines.
-/

deriving instance DecidableEq for Except

namespace Doozer

/-- Flag bit `Valid = 1 << iota` from `client.go`. -/
def Valid : Nat := 1

/-- Flag bit `Done`. -/
def Done : Nat := 2

/-- Flag bit `Set` (named `SetF` because `Set` is taken by Mathlib). -/
def SetF : Nat := 4

/-- Flag bit `Del`. -/
def DelF : Nat := 8

/-- Largest Go `int32` value. -/
def int32Max : Int := 2 ^ 31 - 1

/-- Smallest Go `int32` value. -/
def int32Min : Int := -(2 ^ 31)

/-- Go `int32` increment with two's-complement wraparound (`c.n++`). -/
def inc32 (n : Int) : Int := if n = int32Max then int32Min else n + 1

/-- Number of distinct `int32` tags: fuel bound for the allocation scan. -/
def fuel32 : Nat := 2 ^ 32

/-- The `os.Error` values the client can produce or observe.  Transport and
marshalling failures are wrapped as `ioErr` with their message; `generic`
is the client's own `&Error{code, detail}`. -/
inductive Err where
  | noAddrs
  | badTag
  | oldRev
  | tooLate
  | notDir
  | isDir
  | noEnt
  | eof
  | generic (code : Int) (detail : String)
  | ioErr (msg : String)
  deriving DecidableEq, Repr

/-- Modelled from the spec: the numeric values of the protobuf `Response_Err`
enum are defined in generated protobuf code that is not part of the analyzed
source; only the identity and pairwise distinctness of the named codes is
used, so representative distinct values are assigned here. -/
def Response_NOTDIR : Int := 20

/-- Modelled from the spec: protobuf error code, see `Response_NOTDIR`. -/
def Response_ISDIR : Int := 21

/-- Modelled from the spec: protobuf error code, see `Response_NOTDIR`. -/
def Response_NOENT : Int := 22

/-- Modelled from the spec: protobuf error code, see `Response_NOTDIR`. -/
def Response_REV_MISMATCH : Int := 5

/-- Modelled from the spec: protobuf error code, see `Response_NOTDIR`. -/
def Response_TOO_LATE : Int := 4

/-- Modelled from the spec: protobuf error code, see `Response_NOTDIR`. -/
def Response_REDIRECT : Int := 6

/-- Modelled from the spec: protobuf `Request_CANCEL` verb value, see
`Response_NOTDIR`. -/
def Request_CANCEL : Int := 10

/-- The `errs` map from `client.go`: known error codes to typed errors. -/
def errs (code : Int) : Option Err :=
  if code = Response_NOTDIR then some .notDir
  else if code = Response_ISDIR then some .isDir
  else if code = Response_NOENT then some .noEnt
  else if code = Response_REV_MISMATCH then some .oldRev
  else if code = Response_TOO_LATE then some .tooLate
  else none

/-- A decoded response (`type R Response`); optional protobuf fields are
`Option`. -/
structure R where
  tag : Option Int
  flags : Option Nat
  rev : Option Int
  path : Option String
  value : List Nat
  len : Option Int
  errCode : Option Int
  errDetail : Option String
  deriving DecidableEq, Repr

/-- A request (`type T Request`); only the fields the session layer sets. -/
structure T where
  verb : Option Int
  path : Option String
  rev : Option Int
  value : List Nat
  offset : Option Int
  limit : Option Int
  otherTag : Option Int
  tag : Option Int
  deriving DecidableEq, Repr

/-- `(*R).err()` from `client.go`.  The argument is `Option R` because the
Go receiver is a nilable pointer: `none` is the nil received from a closed
channel. -/
def Rerr : Option R → Option Err
  | none => some .eof
  | some r =>
    match r.errCode with
    | none => none
    | some c =>
      match r.errDetail with
      | some d => some (.generic c d)
      | none =>
        match errs c with
        | some e => some e
        | none => some (.generic c "")

/-- A delivery sink: stands for a Go `chan *R` (identified by number). -/
abbrev Sink := Nat

/-- An entry of the callback map `c.cb`: either an open channel, or the
`nil` placeholder written by `cancel` (reserved-closing). -/
inductive CbEntry where
  | opened (ch : Sink)
  | reserved
  deriving DecidableEq, Repr

/-- The callback table `map[int32]chan *R`, as an association list. -/
abbrev CbMap := List (Int × CbEntry)

/-- Map lookup `ch, ok := m[k]`. -/
def cbLookup : CbMap → Int → Option CbEntry
  | [], _ => none
  | (k, v) :: rest, t => if k = t then some v else cbLookup rest t

/-- Map deletion `m[k] = nil, false`. -/
def cbErase (m : CbMap) (k : Int) : CbMap :=
  m.filter fun p => decide (p.1 ≠ k)

/-- Map assignment `m[k] = v` (overwrites any previous entry). -/
def cbInsert (m : CbMap) (k : Int) (v : CbEntry) : CbMap :=
  (k, v) :: cbErase m k

/-- The mutable state of a `conn` (socket handle and locks elided; the
lock-protected fields are all here and every operation below is one
critical-section-respecting step). -/
structure Conn where
  err : Option Err
  n : Int
  cb : CbMap
  redirectAddr : String
  redirected : Bool
  deriving DecidableEq, Repr

/-- Oracle for one `writeT` call: whether `pb.Marshal` fails and whether
the transport write fails, each with its error message. -/
structure WriteOracle where
  marshalErr : Option String
  writeErr : Option String
  deriving DecidableEq, Repr

/-- `(*conn).writeT`: short-circuits on the sticky error; a marshal failure
is returned without becoming sticky; a transport write failure becomes the
sticky error. -/
def writeT (c : Conn) (o : WriteOracle) : Conn × Option Err :=
  match c.err with
  | some e => (c, some e)
  | none =>
    match o.marshalErr with
    | some s => (c, some (.ioErr s))
    | none =>
      match o.writeErr with
      | some s => ({ c with err := some (.ioErr s) }, some (.ioErr s))
      | none => (c, none)

/-- The tag-allocation scan of `(*conn).send`: starting at `n`, advance with
int32 wraparound until a tag unused in `m` is found.  The Go loop is
unbounded; `fuel32` steps cover the whole tag space, so exhausted fuel
(`none`) is exactly the case where the Go loop never terminates. -/
def findTag (m : CbMap) : Int → Nat → Option Int
  | _, 0 => none
  | n, fuel + 1 =>
    match cbLookup m n with
    | none => some n
    | some _ => findTag m (inc32 n) fuel

/-- `(*conn).send`: fail fast on the sticky error; allocate the lowest free
tag from `c.n`; register the sink as open; write the frame; on a write or
marshal failure, delete the just-registered tag and return the error.
`none` models the nonterminating allocation scan on a full table. -/
def send (c : Conn) (sink : Sink) (o : WriteOracle) :
    Option (Conn × Except Err (Int × Sink)) :=
  match c.err with
  | some e => some (c, .error e)
  | none =>
    match findTag c.cb c.n fuel32 with
    | none => none
    | some tag =>
      let c1 : Conn := { c with n := tag, cb := cbInsert c.cb tag (.opened sink) }
      match writeT c1 o with
      | (c2, some e) => some ({ c2 with cb := cbErase c2.cb tag }, .error e)
      | (c2, none) => some (c2, .ok (tag, sink))

/-- The value `(*conn).call` computes from the single channel receive
(`none` = channel closed without delivery): `Rerr` translated into a
result. -/
def callResult : Option R → Except Err R
  | none => .error .eof
  | some r =>
    match Rerr (some r) with
    | some e => .error e
    | none => .ok r

/-- `(*conn).call`: send, then block for one delivery (supplied by the
`delivery` oracle) and translate it. -/
def call (c : Conn) (sink : Sink) (o : WriteOracle) (delivery : Option R) :
    Option (Conn × Except Err R) :=
  match send c sink o with
  | none => none
  | some (c', .error e) => some (c', .error e)
  | some (c', .ok _) => some (c', callResult delivery)

/-- The caller-visible handle of a streaming call (`type Watch`). -/
structure WatchHandle where
  tag : Int
  ch : Sink
  deriving DecidableEq, Repr

/-- `(*conn).events`, up to the forwarding goroutine (modelled separately by
`forwardEvents`): send, and on success return the handle over the allocated
tag and sink. -/
def events (c : Conn) (sink : Sink) (o : WriteOracle) :
    Option (Conn × Except Err WatchHandle) :=
  match send c sink o with
  | none => none
  | some (c', .error e) => some (c', .error e)
  | some (c', .ok (tag, ch)) => some (c', .ok ⟨tag, ch⟩)

/-- A caller-visible event (`type Event`). -/
structure Event where
  Rev : Int
  Path : String
  Body : List Nat
  Flag : Nat
  Err : Option Err
  deriving DecidableEq, Repr

/-- The body of the forwarding goroutine of `(*conn).events`, for one raw
response received from the sink: an error-bearing response becomes an event
carrying that error (other fields zero), otherwise the response's fields are
copied. -/
def respToEvent (r : R) : Event :=
  match Rerr (some r) with
  | some e => { Rev := 0, Path := "", Body := [], Flag := 0, Err := some e }
  | none =>
    { Rev := r.rev.getD 0, Path := r.path.getD "", Body := r.value,
      Flag := r.flags.getD 0, Err := none }

/-- The whole output sequence of the forwarding goroutine: one event per
response sent on the sink before the sink was closed (the pre-Go-1 `range`
clause does not yield the zero value received at close), after which the
output sequence is closed. -/
def forwardEvents (rs : List R) : List Event :=
  rs.map respToEvent

/-- `pb.GetInt32(r.Tag)` as used by the read loop. -/
def tagOf (r : R) : Int := r.tag.getD 0

/-- `pb.GetInt32(r.Flags)`. -/
def flagsOf (r : R) : Nat := r.flags.getD 0

/-- `flags & Valid != 0`. -/
def hasValid (r : R) : Bool := (flagsOf r).land Valid != 0

/-- `flags & Done != 0`. -/
def hasDone (r : R) : Bool := (flagsOf r).land Done != 0

/-- Observable primitive steps taken by the connection's goroutines, in
program order. -/
inductive Action where
  | release (tag : Int)
  | logDrop
  | dropSilent
  | deliver (ch : Sink) (r : R)
  | closeSink (ch : Sink)
  | notifyClosed
  deriving DecidableEq, Repr

/-- The redirect bookkeeping at the top of the read-loop body. -/
def applyRedirect (c : Conn) (r : R) : Conn :=
  if r.errCode = some Response_REDIRECT then
    { c with redirectAddr := r.errDetail.getD "", redirected := true }
  else c

/-- Callback-table effect of one read-loop iteration on a decoded response:
a reserved placeholder short-circuits (`continue`) untouched; otherwise a
`Done` flag deletes the tag (a no-op when the tag is absent). -/
def readTable (m : CbMap) (r : R) : CbMap :=
  match cbLookup m (tagOf r) with
  | some .reserved => m
  | _ => if hasDone r then cbErase m (tagOf r) else m

/-- Actions of one read-loop iteration on a decoded response, in program
order: reserved placeholder drops silently; an absent tag deletes on `Done`
and then logs-and-drops; an open sink has its tag released first when `Done`
is set, is delivered to when `Valid` is set, and is closed last when `Done`
is set. -/
def readActions (m : CbMap) (r : R) : List Action :=
  match cbLookup m (tagOf r) with
  | some .reserved => [.dropSilent]
  | none => (if hasDone r then [Action.release (tagOf r)] else []) ++ [.logDrop]
  | some (.opened ch) =>
    (if hasDone r then [Action.release (tagOf r)] else [])
      ++ (if hasValid r then [Action.deliver ch r] else [])
      ++ (if hasDone r then [Action.closeSink ch] else [])

/-- One read-loop iteration on a successfully decoded response. -/
def readStep (c : Conn) (r : R) : Conn × List Action :=
  let c0 := applyRedirect c r
  ({ c0 with cb := readTable c0.cb r }, readActions c0.cb r)

/-- The sink-closing part of `(*conn).close`: every open channel in the
table is closed; reserved (nil) entries are skipped. -/
def closeActions (m : CbMap) : List Action :=
  m.filterMap fun p =>
    match p.2 with
    | .opened ch => some (.closeSink ch)
    | .reserved => none

/-- `(*conn).readResponses` over a list of read outcomes (`Except` with the
transport error message): each decoded response is processed by `readStep`;
the first read error records the sticky error if none is set, then the
deferred `close` shuts every open sink, clears the table and notifies the
session. -/
def readLoop (c : Conn) : List (Except String R) → Conn × List Action
  | [] => (c, [])
  | .error s :: _ =>
    let c1 := if c.err = none then { c with err := some (.ioErr s) } else c
    ({ c1 with cb := [] }, closeActions c1.cb ++ [.notifyClosed])
  | .ok r :: rest =>
    let p := readStep c r
    let q := readLoop p.1 rest
    (q.1, p.2 ++ q.2)

/-- The responses a given sink received, in order, within an action trace. -/
def deliveredTo (acts : List Action) (ch : Sink) : List R :=
  acts.filterMap fun a =>
    match a with
    | .deliver ch' r => if ch' = ch then some r else none
    | _ => none

/-- The request issued by `(*conn).cancel`: a unary CANCEL referencing the
target tag. -/
def cancelReq (tag : Int) : T :=
  { verb := some Request_CANCEL, path := none, rev := none, value := [],
    offset := none, limit := none, otherTag := some tag, tag := none }

/-- `(*conn).cancel tag cb`: the Go guard `ch, ok := c.cb[tag]; if !ok ||
ch != cb` rejects with the bad-tag error exactly unless the lookup yields
the open entry holding `cb` (the caller's channel `cb` is never the nil
placeholder, so a reserved entry also fails the guard), with no state
change.  Otherwise the entry is replaced by the reserved placeholder and
the unary CANCEL call is issued (its outcome is the `callErr` oracle; its
own tag allocation and release net to no table change and are modelled by
the generic `send`/`readStep` behaviour).  On success the placeholder is
removed and the sink closed; on failure the placeholder is deliberately
kept.  Returns the new state, the error, the request issued (if any) and
the actions taken. -/
def cancel (c : Conn) (tag : Int) (cb : Sink) (callErr : Option Err) :
    Conn × Option Err × Option T × List Action :=
  if cbLookup c.cb tag = some (.opened cb) then
    match callErr with
    | some e => ({ c with cb := cbInsert c.cb tag .reserved }, some e,
        some (cancelReq tag), [])
    | none => ({ c with cb := cbErase (cbInsert c.cb tag .reserved) tag }, none,
        some (cancelReq tag), [.closeSink cb])
  else (c, some .badTag, none, [])

/-- One interleaved operation on a connection, with its oracles. -/
inductive OpStep where
  | sendOp (sink : Sink) (o : WriteOracle)
  | cancelOp (tag : Int) (cb : Sink) (callErr : Option Err)
  | readOp (r : R)
  deriving DecidableEq, Repr

/-- State effect of one interleaved operation (a `send` whose allocation
scan diverges leaves the state unchanged forever, so identifying it with the
old state is sound for state-invariant reasoning). -/
def runStep (c : Conn) : OpStep → Conn
  | .sendOp sink o =>
    match send c sink o with
    | none => c
    | some (c', _) => c'
  | .cancelOp tag cb e => (cancel c tag cb e).1
  | .readOp r => (readStep c r).1

/-- Iterated interleaved operations. -/
def runSteps (c : Conn) : List OpStep → Conn
  | [] => c
  | st :: sts => runSteps (runStep c st) sts

/-- Requests serviced by the Cluster Session's `run` loop. -/
inductive SessionEvent where
  | addAddr (a : String)
  | removeAddr (a : String)
  | connClosed
  deriving DecidableEq, Repr

/-- The Cluster Session's observable state: running with an address pool
and a current connection (identified by its address), or terminated (the
`run` loop has exited after `connect` closed the connection channel). -/
inductive SessionState where
  | running (pool : List String) (cur : String)
  | terminated
  deriving DecidableEq, Repr

/-- `(*Client).connect`: try pool addresses in turn (the model fixes the
map's arbitrary iteration order as list order); a failed dial removes the
address; the first success returns it together with the surviving pool;
an exhausted pool closes the connection channel (`none`). -/
def connectPool (dial : String → Bool) : List String → Option (String × List String)
  | [] => none
  | a :: rest =>
    if dial a then some (a, a :: rest) else connectPool dial rest

/-- `a[add] = true` on the pool map: set-like insertion. -/
def insertAddr (pool : List String) (a : String) : List String :=
  if pool.contains a then pool else pool ++ [a]

/-- One serviced request of `(*Client).run`.  A terminated session services
nothing: senders block forever, so no event ever changes its state. -/
def sessionStep (dial : String → Bool) (s : SessionState) (ev : SessionEvent) :
    SessionState :=
  match s, ev with
  | .terminated, _ => .terminated
  | .running pool cur, .addAddr a => .running (insertAddr pool a) cur
  | .running pool cur, .removeAddr a =>
    .running (pool.filter fun x => x != a) cur
  | .running pool cur, .connClosed =>
    match connectPool dial (pool.filter fun x => x != cur) with
    | none => .terminated
    | some pr => .running pr.2 pr.1

/-- `(*Client).run` over a list of serviced requests. -/
def sessionRun (dial : String → Bool) (s : SessionState) :
    List SessionEvent → SessionState
  | [] => s
  | ev :: evs => sessionRun dial (sessionStep dial s ev) evs

/-- Session startup: `New` spawns `run`, which first calls `connect` on the
initial pool. -/
def sessionStart (dial : String → Bool) (pool : List String) : SessionState :=
  match connectPool dial pool with
  | none => .terminated
  | some pr => .running pr.2 pr.1

/-- `c := <-cl.c`: the connection handed out by the session; `none` is the
nil read from the closed channel of a terminated session. -/
def getConn : SessionState → Option String
  | .running _ cur => some cur
  | .terminated => none

/-- `(*Client).call`: fetch the connection; nil means `ErrNoAddrs`;
otherwise the continuation performs `c.call`. -/
def clientCallS (s : SessionState) (k : String → Except Err R) : Except Err R :=
  match getConn s with
  | none => .error .noAddrs
  | some c => k c

/-- The first iteration of `(*Client).retry`: fetch the connection; nil
means `ErrNoAddrs` immediately. -/
def clientRetryS (s : SessionState) (k : String → Except Err R) : Except Err R :=
  match getConn s with
  | none => .error .noAddrs
  | some c => k c

/-- `(*Client).Watch`: fetch the connection; nil means `ErrNoAddrs`. -/
def clientWatchS (s : SessionState) (k : String → Except Err WatchHandle) :
    Except Err WatchHandle :=
  match getConn s with
  | none => .error .noAddrs
  | some c => k c

/-- `(*Client).Walk`: fetch the connection; nil means `ErrNoAddrs`. -/
def clientWalkS (s : SessionState) (k : String → Except Err WatchHandle) :
    Except Err WatchHandle :=
  match getConn s with
  | none => .error .noAddrs
  | some c => k c

/-- `(*Client).Getdir`: fetch the connection; nil means `ErrNoAddrs`. -/
def clientGetdirS (s : SessionState) (k : String → Except Err WatchHandle) :
    Except Err WatchHandle :=
  match getConn s with
  | none => .error .noAddrs
  | some c => k c

/-- One iteration of `(*Client).retry`, as seen by the caller: the fetched
connection (`none` = session terminated), the send/receive oracles of the
`c.call` it performs, and the sticky error concurrently observable on the
connection right after the call (`c.err != nil` check). -/
structure Attempt where
  fetched : Option Conn
  sink : Sink
  wo : WriteOracle
  delivery : Option R
  stickyAfter : Option Err
  deriving DecidableEq, Repr

/-- `(*Client).retry` over its successive iterations: a nil connection
returns `ErrNoAddrs`; otherwise the call is issued and, if the connection
reports a sticky error afterwards, the outcome is discarded and the loop
continues; `none` models a retry still looping (or a diverging allocation
scan). -/
def retryGo : List Attempt → Option (Except Err R)
  | [] => none
  | a :: rest =>
    match a.fetched with
    | none => some (.error .noAddrs)
    | some c =>
      match call c a.sink a.wo a.delivery with
      | none => none
      | some (c', res) =>
        if c'.err.isSome || a.stickyAfter.isSome then retryGo rest
        else some res

/-- Oracle: marshal and write both succeed. -/
def woOk : WriteOracle := ⟨none, none⟩

/-- Oracle: the transport write fails with message "pipe". -/
def woPipe : WriteOracle := ⟨none, some "pipe"⟩

/-- A fresh connection as produced by `dial`. -/
def cFresh : Conn := ⟨none, 0, [], "", false⟩

/-- A connection with tag 0 open for sink 9. -/
def cOne : Conn := ⟨none, 0, [(0, .opened 9)], "", false⟩

/-- `cOne` after a send registered sink 5 at tag 1. -/
def cOne2 : Conn := ⟨none, 1, [(1, .opened 5), (0, .opened 9)], "", false⟩

/-- A connection with tag 0 open for sink 7. -/
def cOpen7 : Conn := ⟨none, 0, [(0, .opened 7)], "", false⟩

/-- A connection with tag 0 reserved-closing. -/
def cRes : Conn := ⟨none, 0, [(0, .reserved)], "", false⟩

/-- A connection with a sticky error and tag 0 open for sink 0. -/
def cErrC : Conn := ⟨some (.ioErr "boom"), 0, [(0, .opened 0)], "", false⟩

/-- A Valid+Done response for tag 0 with no payload. -/
def rDone : R := ⟨some 0, some 3, none, none, [], none, none, none⟩

/-- A Valid (not Done) response for tag 0 carrying error code 99, "boom". -/
def rErrB : R := ⟨some 0, some 1, none, none, [], none, some 99, some "boom"⟩

/-- A Valid (not Done) normal response for tag 0. -/
def rNorm : R := ⟨some 0, some 1, some 3, some "/a", [1], none, none, none⟩

/-- A response bearing the known NOTDIR code together with a detail. -/
def rKD : R := ⟨some 0, some 3, none, none, [], none, some Response_NOTDIR, some "x"⟩

/-- The state of `cFresh` after a unary call registered sink 1 at tag 0. -/
def cKD : Conn := ⟨none, 0, [(0, .opened 1)], "", false⟩

/-- An attempt whose connection fetch yields nil (session terminated). -/
def aNil : Attempt := ⟨none, 0, woOk, none, none⟩

/-- An attempt whose write fails, leaving the connection's sticky error. -/
def aFail : Attempt := ⟨some cFresh, 0, woPipe, none, none⟩

/-- An attempt that succeeds, delivering `rNorm`. -/
def aOk : Attempt := ⟨some cFresh, 0, woOk, some rNorm, none⟩

end Doozer

namespace Doozer

theorem cbLookup_erase_self (m : CbMap) (k : Int) : cbLookup (cbErase m k) k = none := by
  induction m with
  | nil => rfl
  | cons p rest ih =>
    obtain ⟨a, v⟩ := p
    by_cases h : a = k
    · simpa [cbErase, List.filter_cons, h] using ih
    · simp [cbErase, List.filter_cons, h, cbLookup] at ih ⊢
      exact ih

theorem cbLookup_erase_ne (m : CbMap) (k t : Int) (h : t ≠ k) :
    cbLookup (cbErase m k) t = cbLookup m t := by
  induction m with
  | nil => rfl
  | cons p rest ih =>
    obtain ⟨a, v⟩ := p
    by_cases hak : a = k
    · have hkt : ¬ (k = t) := fun e => h e.symm
      simp [cbErase, List.filter_cons, cbLookup, hak, hkt] at ih ⊢
      exact ih
    · by_cases hat : a = t
      · simp [cbErase, List.filter_cons, cbLookup, hak, hat, h]
      · simp [cbErase, List.filter_cons, cbLookup, hak, hat] at ih ⊢
        exact ih

theorem cbLookup_insert_self (m : CbMap) (k : Int) (v : CbEntry) :
    cbLookup (cbInsert m k v) k = some v := by
  simp [cbInsert, cbLookup]

theorem cbLookup_insert_ne (m : CbMap) (k t : Int) (v : CbEntry) (h : t ≠ k) :
    cbLookup (cbInsert m k v) t = cbLookup m t := by
  have hkt : ¬ (k = t) := fun e => h e.symm
  simp [cbInsert, cbLookup, hkt, cbLookup_erase_ne m k t h]

theorem cbErase_insert (m : CbMap) (k : Int) (v : CbEntry) :
    cbErase (cbInsert m k v) k = cbErase m k := by
  simp [cbInsert, cbErase, List.filter_cons, List.filter_filter]

theorem cbErase_of_lookup_none (m : CbMap) (k : Int) (h : cbLookup m k = none) :
    cbErase m k = m := by
  induction m with
  | nil => rfl
  | cons p rest ih =>
    obtain ⟨a, v⟩ := p
    by_cases hak : a = k
    · simp [cbLookup, hak] at h
    · simp [cbLookup, hak] at h
      simp [cbErase, List.filter_cons, hak] at ih ⊢
      exact ih h

theorem findTag_fresh (m : CbMap) (f : Nat) :
    ∀ (n t : Int), findTag m n f = some t → cbLookup m t = none := by
  induction f with
  | zero => intro n t h; simp [findTag] at h
  | succ f ih =>
    intro n t h
    rw [findTag] at h
    cases hl : cbLookup m n with
    | none => rw [hl] at h; cases h; exact hl
    | some v => rw [hl] at h; exact ih (inc32 n) t h

theorem applyRedirect_cb (c : Conn) (r : R) : (applyRedirect c r).cb = c.cb := by
  unfold applyRedirect; split <;> rfl

theorem applyRedirect_err (c : Conn) (r : R) : (applyRedirect c r).err = c.err := by
  unfold applyRedirect; split <;> rfl

theorem readStep_snd (c : Conn) (r : R) : (readStep c r).2 = readActions c.cb r := by
  show readActions (applyRedirect c r).cb r = readActions c.cb r
  rw [applyRedirect_cb]

theorem readStep_fst_cb (c : Conn) (r : R) : (readStep c r).1.cb = readTable c.cb r := by
  show readTable (applyRedirect c r).cb r = readTable c.cb r
  rw [applyRedirect_cb]

theorem readStep_fst_err (c : Conn) (r : R) : (readStep c r).1.err = c.err := by
  show (applyRedirect c r).err = c.err
  exact applyRedirect_err c r

end Doozer

namespace Doozer

theorem send_eq_of_ok (c : Conn) (sink : Sink) (o : WriteOracle) (tg : Int)
    (he : c.err = none) (hf : findTag c.cb c.n fuel32 = some tg)
    (hm : o.marshalErr = none) (hw : o.writeErr = none) :
    send c sink o =
      some ({ c with n := tg, cb := cbInsert c.cb tg (.opened sink) }, .ok (tg, sink)) := by
  simp [send, he, hf, writeT, hm, hw]

end Doozer

namespace Doozer

theorem writeT_cb (c : Conn) (o : WriteOracle) : (writeT c o).1.cb = c.cb := by
  unfold writeT
  cases he : c.err with
  | some e => rfl
  | none =>
    cases hm : o.marshalErr with
    | some s => rfl
    | none =>
      cases hw : o.writeErr with
      | some s => rfl
      | none => rfl

theorem send_cb_cases (c : Conn) (sink : Sink) (o : WriteOracle) (c' : Conn)
    (res : Except Err (Int × Sink)) (h : send c sink o = some (c', res)) :
    c'.cb = c.cb ∨
      ∃ tg, cbLookup c.cb tg = none ∧ c'.cb = cbInsert c.cb tg (.opened sink) := by
  unfold send at h
  cases he : c.err with
  | some e => rw [he] at h; simp at h; exact Or.inl (by rw [← h.1])
  | none =>
    rw [he] at h
    cases hf : findTag c.cb c.n fuel32 with
    | none => rw [hf] at h; simp at h
    | some tg =>
      rw [hf] at h
      have hfresh : cbLookup c.cb tg = none := findTag_fresh c.cb fuel32 c.n tg hf
      simp only [writeT] at h
      cases hm : o.marshalErr with
      | some s =>
        rw [hm] at h; simp at h
        refine Or.inl ?_
        rw [← h.1]
        show cbErase (cbInsert c.cb tg (.opened sink)) tg = c.cb
        rw [cbErase_insert]
        exact cbErase_of_lookup_none _ _ hfresh
      | none =>
        rw [hm] at h
        cases hw : o.writeErr with
        | some s =>
          rw [hw] at h; simp at h
          refine Or.inl ?_
          rw [← h.1]
          show cbErase (cbInsert c.cb tg (.opened sink)) tg = c.cb
          rw [cbErase_insert]
          exact cbErase_of_lookup_none _ _ hfresh
        | none =>
          rw [hw] at h; simp at h
          exact Or.inr ⟨tg, hfresh, by rw [← h.1]⟩

theorem send_preserves_mapped (c : Conn) (sink : Sink) (o : WriteOracle) (c' : Conn)
    (res : Except Err (Int × Sink)) (h : send c sink o = some (c', res))
    (t : Int) (v : CbEntry) (hv : cbLookup c.cb t = some v) :
    cbLookup c'.cb t = some v := by
  rcases send_cb_cases c sink o c' res h with hc | ⟨tg, hfresh, hc⟩
  · rw [hc]; exact hv
  · rw [hc]
    have hne : t ≠ tg := fun e => by rw [e, hfresh] at hv; cases hv
    rw [cbLookup_insert_ne _ _ _ _ hne]
    exact hv

theorem readTable_preserves_mapped (m : CbMap) (r : R) (t : Int)
    (hv : cbLookup m t = some CbEntry.reserved) :
    cbLookup (readTable m r) t = some CbEntry.reserved := by
  unfold readTable
  cases hl : cbLookup m (tagOf r) with
  | none =>
    have hne : t ≠ tagOf r := fun e => by rw [e, hl] at hv; cases hv
    by_cases hd : hasDone r = true
    · simp [hd, cbLookup_erase_ne _ _ _ hne, hv]
    · simp [hd, hv]
  | some entry =>
    cases entry with
    | reserved => exact hv
    | opened ch =>
      have hne : t ≠ tagOf r := fun e => by rw [e, hl] at hv; cases hv
      by_cases hd : hasDone r = true
      · simp [hd, cbLookup_erase_ne _ _ _ hne, hv]
      · simp [hd, hv]

theorem reserved_preserved_step (c : Conn) (tag : Int)
    (h : cbLookup c.cb tag = some CbEntry.reserved) (st : OpStep) :
    cbLookup (runStep c st).cb tag = some CbEntry.reserved := by
  cases st with
  | sendOp sink o =>
    simp only [runStep]
    cases hs : send c sink o with
    | none => exact h
    | some p =>
      obtain ⟨c1, res1⟩ := p
      exact send_preserves_mapped c sink o c1 res1 hs tag _ h
  | readOp r =>
    simp only [runStep]
    rw [readStep_fst_cb]
    exact readTable_preserves_mapped c.cb r tag h
  | cancelOp t cb ce =>
    simp only [runStep]
    unfold cancel
    by_cases hc : cbLookup c.cb t = some (CbEntry.opened cb)
    · have hne : tag ≠ t := fun e => by rw [← e, h] at hc; simp at hc
      rw [if_pos hc]
      cases ce with
      | some e =>
        show cbLookup (cbInsert c.cb t CbEntry.reserved) tag = some CbEntry.reserved
        rw [cbLookup_insert_ne _ _ _ _ hne]; exact h
      | none =>
        show cbLookup (cbErase (cbInsert c.cb t CbEntry.reserved) t) tag
          = some CbEntry.reserved
        rw [cbLookup_erase_ne _ _ _ hne, cbLookup_insert_ne _ _ _ _ hne]; exact h
    · rw [if_neg hc]; exact h

theorem reserved_preserved (c : Conn) (tag : Int) (sts : List OpStep)
    (h : cbLookup c.cb tag = some CbEntry.reserved) :
    cbLookup (runSteps c sts).cb tag = some CbEntry.reserved := by
  induction sts generalizing c with
  | nil => exact h
  | cons st sts ih => exact ih _ (reserved_preserved_step c tag h st)

end Doozer

namespace Doozer

theorem notifyClosed_not_mem_readActions (m : CbMap) (r : R) :
    Action.notifyClosed ∉ readActions m r := by
  unfold readActions
  cases hl : cbLookup m (tagOf r) with
  | none =>
    by_cases hd : hasDone r = true <;> simp [hd]
  | some entry =>
    cases entry with
    | reserved => simp
    | opened ch =>
      by_cases hd : hasDone r = true <;> by_cases hv : hasValid r = true <;>
        simp [hd, hv]

theorem readLoop_ok_no_teardown (rs : List R) :
    ∀ c : Conn, (readLoop c (rs.map Except.ok)).1.err = c.err ∧
      Action.notifyClosed ∉ (readLoop c (rs.map Except.ok)).2 := by
  induction rs with
  | nil => intro c; exact ⟨rfl, by simp [readLoop]⟩
  | cons r rs ih =>
    intro c
    simp only [List.map_cons, readLoop]
    constructor
    · rw [(ih (readStep c r).1).1, readStep_fst_err]
    · rw [List.mem_append]
      push_neg
      refine ⟨?_, (ih (readStep c r).1).2⟩
      rw [readStep_snd]
      exact notifyClosed_not_mem_readActions _ _

theorem errs_ne_noAddrs (code : Int) (e : Err) (h : errs code = some e) :
    e ≠ Err.noAddrs := by
  unfold errs at h
  split at h
  · cases h; simp
  · split at h
    · cases h; simp
    · split at h
      · cases h; simp
      · split at h
        · cases h; simp
        · split at h
          · cases h; simp
          · cases h

theorem Rerr_ne_noAddrs (d : Option R) (e : Err) (h : Rerr d = some e) :
    e ≠ Err.noAddrs := by
  cases d with
  | none =>
    simp [Rerr] at h
    subst h; simp
  | some r =>
    cases hc : r.errCode with
    | none => simp [Rerr, hc] at h
    | some code =>
      cases hd : r.errDetail with
      | some det =>
        simp [Rerr, hc, hd] at h
        subst h; simp
      | none =>
        cases he : errs code with
        | some e0 =>
          simp [Rerr, hc, hd, he] at h
          subst h
          exact errs_ne_noAddrs code _ he
        | none =>
          simp [Rerr, hc, hd, he] at h
          subst h; simp

theorem callResult_error_ne_noAddrs (d : Option R) (e : Err)
    (h : callResult d = .error e) : e ≠ Err.noAddrs := by
  cases d with
  | none => simp [callResult] at h; subst h; simp
  | some r =>
    cases hr : Rerr (some r) with
    | none => simp [callResult, hr] at h
    | some e0 =>
      simp [callResult, hr] at h
      subst h
      exact Rerr_ne_noAddrs _ _ hr

theorem call_eq_of_ok (c : Conn) (sink : Sink) (o : WriteOracle) (d : Option R)
    (tg : Int) (he : c.err = none) (hf : findTag c.cb c.n fuel32 = some tg)
    (hm : o.marshalErr = none) (hw : o.writeErr = none) :
    call c sink o d =
      some ({ c with n := tg, cb := cbInsert c.cb tg (.opened sink) },
        callResult d) := by
  unfold call
  rw [send_eq_of_ok c sink o tg he hf hm hw]

theorem send_error_cases (c : Conn) (sink : Sink) (o : WriteOracle) (c' : Conn)
    (e : Err) (h : send c sink o = some (c', .error e)) :
    c.err = some e ∨ ∃ s, e = .ioErr s := by
  unfold send at h
  cases he : c.err with
  | some e1 =>
    rw [he] at h; simp at h
    left
    rw [h.2]
  | none =>
    rw [he] at h
    cases hf : findTag c.cb c.n fuel32 with
    | none => rw [hf] at h; cases h
    | some tg =>
      rw [hf] at h
      simp only [writeT] at h
      cases hm : o.marshalErr with
      | some s => rw [hm] at h; simp at h; exact Or.inr ⟨s, h.2.symm⟩
      | none =>
        rw [hm] at h
        cases hw : o.writeErr with
        | some s => rw [hw] at h; simp at h; exact Or.inr ⟨s, h.2.symm⟩
        | none => rw [hw] at h; simp at h

theorem call_error_cases (c : Conn) (sink : Sink) (o : WriteOracle) (d : Option R)
    (c' : Conn) (e : Err) (h : call c sink o d = some (c', .error e)) :
    c.err = some e ∨ (∃ s, e = .ioErr s) ∨ callResult d = .error e := by
  unfold call at h
  cases hs : send c sink o with
  | none => rw [hs] at h; cases h
  | some p =>
    obtain ⟨c1, res⟩ := p
    rw [hs] at h
    cases res with
    | error e0 =>
      simp at h
      rcases send_error_cases c sink o c1 e0 hs with h1 | ⟨s, hse⟩
      · left; rw [h1, h.2]
      · right; left; exact ⟨s, by rw [← h.2, hse]⟩
    | ok pr =>
      simp at h
      right; right
      exact h.2

theorem call_error_ne_noAddrs (c : Conn) (sink : Sink) (o : WriteOracle)
    (d : Option R) (c' : Conn) (e : Err) (hc : c.err ≠ some Err.noAddrs)
    (h : call c sink o d = some (c', .error e)) : e ≠ Err.noAddrs := by
  rcases call_error_cases c sink o d c' e h with hce | ⟨s, rfl⟩ | hcr
  · intro he; rw [he] at hce; exact hc hce
  · simp
  · exact callResult_error_ne_noAddrs d e hcr

end Doozer

namespace Doozer

theorem connectPool_exhausted (dial : String → Bool) (pool : List String)
    (h : ∀ a ∈ pool, dial a = false) : connectPool dial pool = none := by
  induction pool with
  | nil => rfl
  | cons a rest ih =>
    simp only [connectPool, h a (by simp)]
    simp only [Bool.false_eq_true, if_false]
    exact ih fun x hx => h x (by simp [hx])

theorem terminated_absorbs (dial : String → Bool) (evs : List SessionEvent) :
    sessionRun dial .terminated evs = .terminated := by
  induction evs with
  | nil => rfl
  | cons ev evs ih => simpa [sessionRun, sessionStep] using ih

end Doozer

namespace Doozer

theorem deliver_routed (m : CbMap) (r0 x : R) (ch2 : Sink)
    (hmem : Action.deliver ch2 x ∈ readActions m r0) :
    x = r0 ∧ cbLookup m (tagOf r0) = some (.opened ch2) := by
  revert hmem
  unfold readActions
  cases hl : cbLookup m (tagOf r0) with
  | none =>
    intro hmem
    by_cases hd : hasDone r0 = true <;> simp [hd] at hmem
  | some entry =>
    cases entry with
    | reserved => intro hmem; simp at hmem
    | opened ch =>
      intro hmem
      by_cases hd : hasDone r0 = true <;> by_cases hv : hasValid r0 = true <;>
        simp [hd, hv] at hmem
      · exact ⟨hmem.2, by rw [hmem.1]⟩
      · exact ⟨hmem.2, by rw [hmem.1]⟩

end Doozer

namespace Doozer

/-- C1: on one connection, a tag returned by `send` is not mapped in the
callback table (neither open nor reserved-closing) at the moment it is
registered: a successful `send` returns a tag that was absent from the
table, registers exactly the given sink as open under it, and changes no
other entry; and the read loop only ever delivers a response to the sink
registered for that response's tag — so each tag is open for at most one
logical call and no response is delivered to another call's sink. -/
theorem send_allocates_fresh_tag (c : Conn) (sink : Sink) (o : WriteOracle)
    (c' : Conn) (tag : Int) (ch : Sink)
    (h : send c sink o = some (c', .ok (tag, ch))) :
    (cbLookup c.cb tag = none ∧ ch = sink ∧
      cbLookup c'.cb tag = some (.opened sink) ∧
      ∀ t, t ≠ tag → cbLookup c'.cb t = cbLookup c.cb t) ∧
    ∀ (m : CbMap) (r0 x : R) (ch2 : Sink),
      Action.deliver ch2 x ∈ readActions m r0 →
      x = r0 ∧ cbLookup m (tagOf r0) = some (.opened ch2) := by
  refine ⟨?_, fun m r0 x ch2 hmem => deliver_routed m r0 x ch2 hmem⟩
  unfold send at h
  cases he : c.err with
  | some e => rw [he] at h; simp at h
  | none =>
    rw [he] at h
    cases hf : findTag c.cb c.n fuel32 with
    | none => rw [hf] at h; simp at h
    | some tg =>
      rw [hf] at h
      have hfresh : cbLookup c.cb tg = none := findTag_fresh c.cb fuel32 c.n tg hf
      simp only [writeT] at h
      cases hm : o.marshalErr with
      | some s => rw [hm] at h; simp at h
      | none =>
        rw [hm] at h
        cases hw : o.writeErr with
        | some s => rw [hw] at h; simp at h
        | none =>
          rw [hw] at h
          simp at h
          obtain ⟨rfl, rfl, rfl⟩ := h
          exact ⟨hfresh, rfl, cbLookup_insert_self _ _ _,
            fun t ht => cbLookup_insert_ne _ _ _ _ ht⟩

/-- Witness for C1 at a concrete input: on `cOne` (tag 0 already open), the
send registers the fresh tag 1. -/
theorem send_allocates_fresh_tag_witness :
    cbLookup cOne.cb 1 = none ∧ cbLookup cOne2.cb 1 = some (.opened 5) :=
  ⟨((send_allocates_fresh_tag cOne 5 woOk cOne2 1 5 (by decide)).1).1,
   ((send_allocates_fresh_tag cOne 5 woOk cOne2 1 5 (by decide)).1).2.2.1⟩

/-- C10: if `send` fails to write the frame after allocating a tag — a
marshal failure or a transport write failure — it deletes the
just-registered tag before returning the error, leaving the callback table
exactly as it was (the write failure additionally becomes the sticky
error, the marshal failure does not). -/
theorem send_failure_restores_table (c : Conn) (sink : Sink) (o : WriteOracle)
    (tag : Int) (hc : c.err = none)
    (hft : findTag c.cb c.n fuel32 = some tag) :
    (∀ s, o.marshalErr = some s →
       send c sink o = some ({ c with n := tag }, .error (.ioErr s))) ∧
    (∀ s, o.marshalErr = none → o.writeErr = some s →
       send c sink o =
         some ({ c with n := tag, err := some (.ioErr s) }, .error (.ioErr s))) := by
  have hfresh : cbLookup c.cb tag = none := findTag_fresh c.cb fuel32 c.n tag hft
  have hres : cbErase (cbInsert c.cb tag (.opened sink)) tag = c.cb := by
    rw [cbErase_insert]
    exact cbErase_of_lookup_none _ _ hfresh
  constructor
  · intro s hm
    simp [send, hc, hft, writeT, hm, hres]
  · intro s hm hw
    simp [send, hc, hft, writeT, hm, hw, hres]

/-- Witness for C10 at a concrete input: a write failure on `cOne` leaves
the table with only the previously open tag 0. -/
theorem send_failure_restores_table_witness :
    send cOne 5 woPipe =
      some ({ cOne with n := 1, err := some (.ioErr "pipe") },
        .error (.ioErr "pipe")) :=
  (send_failure_restores_table cOne 5 woPipe 1 (by decide) (by decide)).2 "pipe"
    (by decide) (by decide)

end Doozer

namespace Doozer

theorem send_ok_fresh (c : Conn) (sink : Sink) (o : WriteOracle) (c' : Conn)
    (tag : Int) (ch : Sink) (h : send c sink o = some (c', .ok (tag, ch))) :
    cbLookup c.cb tag = none := by
  unfold send at h
  cases he : c.err with
  | some e => rw [he] at h; simp at h
  | none =>
    rw [he] at h
    cases hf : findTag c.cb c.n fuel32 with
    | none => rw [hf] at h; simp at h
    | some tg =>
      rw [hf] at h
      simp only [writeT] at h
      cases hm : o.marshalErr with
      | some s => rw [hm] at h; simp at h
      | none =>
        rw [hm] at h
        cases hw : o.writeErr with
        | some s => rw [hw] at h; simp at h
        | none =>
          rw [hw] at h; simp at h
          obtain ⟨-, rfl, -⟩ := h
          exact findTag_fresh c.cb fuel32 c.n _ hf

/-- C2: `cancel tag cb` on a tag not open with exactly the expected sink
(absent, reserved-closing, or holding a different sink) returns the bad-tag
error and changes no state.  On a matching open tag it issues the unary
CANCEL request for the tag and: on success removes the placeholder (the tag
is again absent) and closes the original sink; on failure leaves the
reserved placeholder, returning the failure.  Other table entries are never
touched, a reserved placeholder survives every later send, cancel or
read-loop step on the connection, and a later send never returns a reserved
tag — so a tag whose CANCEL failed is never reused on that connection. -/
theorem cancel_spec (c : Conn) (tag : Int) (cb : Sink) (ce : Option Err) :
    (cbLookup c.cb tag ≠ some (.opened cb) →
       cancel c tag cb ce = (c, some .badTag, none, []))
  ∧ (cbLookup c.cb tag = some (.opened cb) →
       (cancel c tag cb ce).2.2.1 = some (cancelReq tag)
     ∧ (ce = none →
          cancel c tag cb ce =
            ({ c with cb := cbErase (cbInsert c.cb tag .reserved) tag }, none,
              some (cancelReq tag), [.closeSink cb])
        ∧ cbLookup (cancel c tag cb ce).1.cb tag = none)
     ∧ (∀ e, ce = some e →
          cancel c tag cb ce =
            ({ c with cb := cbInsert c.cb tag .reserved }, some e,
              some (cancelReq tag), [])
        ∧ cbLookup (cancel c tag cb ce).1.cb tag = some .reserved)
     ∧ (∀ t, t ≠ tag → cbLookup (cancel c tag cb ce).1.cb t = cbLookup c.cb t))
  ∧ (∀ sts : List OpStep, cbLookup c.cb tag = some .reserved →
       cbLookup (runSteps c sts).cb tag = some .reserved)
  ∧ (∀ (sink : Sink) (o : WriteOracle) (c' : Conn) (t : Int) (ch : Sink),
       cbLookup c.cb tag = some .reserved →
       send c sink o = some (c', .ok (t, ch)) → t ≠ tag) := by
  refine ⟨?_, ?_, ?_, ?_⟩
  · intro hne
    unfold cancel
    rw [if_neg hne]
  · intro hl
    refine ⟨?_, ?_, ?_, ?_⟩
    · unfold cancel
      rw [if_pos hl]
      cases ce <;> rfl
    · intro hce
      subst hce
      unfold cancel
      rw [if_pos hl]
      exact ⟨rfl, cbLookup_erase_self _ _⟩
    · intro e hce
      subst hce
      unfold cancel
      rw [if_pos hl]
      exact ⟨rfl, cbLookup_insert_self _ _ _⟩
    · intro t ht
      unfold cancel
      rw [if_pos hl]
      cases ce with
      | none =>
        show cbLookup (cbErase (cbInsert c.cb tag .reserved) tag) t = cbLookup c.cb t
        rw [cbLookup_erase_ne _ _ _ ht, cbLookup_insert_ne _ _ _ _ ht]
      | some e =>
        show cbLookup (cbInsert c.cb tag .reserved) t = cbLookup c.cb t
        rw [cbLookup_insert_ne _ _ _ _ ht]
  · intro sts hres
    exact reserved_preserved c tag sts hres
  · intro sink o c' t ch hres hsend heq
    have hfresh := send_ok_fresh c sink o c' t ch hsend
    rw [heq, hres] at hfresh
    cases hfresh

/-- Witness for C2 at concrete inputs: a mismatched sink yields bad-tag
unchanged; a matching cancel that succeeds frees tag 0 and closes sink 9;
a reserved tag survives a send, a read and a cancel. -/
theorem cancel_spec_witness :
    cancel cOne 0 5 none = (cOne, some .badTag, none, []) ∧
    cancel cOne 0 9 none =
      ({ cOne with cb := cbErase (cbInsert cOne.cb 0 .reserved) 0 }, none,
        some (cancelReq 0), [.closeSink 9]) ∧
    cbLookup
        (runSteps cRes [.sendOp 5 woOk, .readOp rDone, .cancelOp 0 5 none]).cb 0
      = some CbEntry.reserved :=
  ⟨(cancel_spec cOne 0 5 none).1 (by decide),
   (((cancel_spec cOne 0 9 none).2.1 (by decide)).2.1 rfl).1,
   (cancel_spec cRes 0 5 none).2.2.1
     [.sendOp 5 woOk, .readOp rDone, .cancelOp 0 5 none] (by decide)⟩

end Doozer

namespace Doozer

/-- C3: in the read loop, a Done-flagged response whose tag maps to an open
sink has its tag removed from the callback table strictly before the
response is delivered to the sink or the sink is closed: the iteration's
action sequence begins with the release, followed by the delivery (when
Valid is set) and the close, and the resulting table no longer holds the
tag. -/
theorem readloop_release_before_delivery (c : Conn) (r : R) (ch : Sink)
    (hl : cbLookup c.cb (tagOf r) = some (.opened ch)) (hd : hasDone r = true) :
    (readStep c r).2 =
      Action.release (tagOf r) ::
        ((if hasValid r then [Action.deliver ch r] else [])
          ++ [Action.closeSink ch])
  ∧ cbLookup (readStep c r).1.cb (tagOf r) = none := by
  constructor
  · rw [readStep_snd]
    unfold readActions
    rw [hl]
    simp [hd]
  · rw [readStep_fst_cb]
    unfold readTable
    rw [hl]
    simp [hd, cbLookup_erase_self]

/-- Witness for C3 at a concrete input: the Done-flagged `rDone` on a
connection with tag 0 open for sink 7. -/
theorem readloop_release_before_delivery_witness :
    (readStep cOpen7 rDone).2 =
      [Action.release 0, Action.deliver 7 rDone, Action.closeSink 7] ∧
    cbLookup (readStep cOpen7 rDone).1.cb 0 = none := by
  have h := readloop_release_before_delivery cOpen7 rDone 7 (by decide) (by decide)
  exact ⟨h.1.trans (by decide), h.2⟩

/-- C4: the read loop's handling of each inbound response: an unmapped tag
is logged and dropped with nothing delivered and nothing closed; a
reserved-closing placeholder is dropped silently; an open sink is delivered
to iff `Valid` is set and closed, after any delivery, iff `Done` is set;
and no decoded response ever terminates the loop — processing any list of
decoded responses leaves the sticky error unchanged and never performs
teardown. -/
theorem readloop_case_analysis (c : Conn) (r : R) :
    (cbLookup c.cb (tagOf r) = none →
       (readStep c r).2 =
         (if hasDone r then [Action.release (tagOf r)] else [])
           ++ [Action.logDrop]
     ∧ (∀ ch x, Action.deliver ch x ∉ (readStep c r).2)
     ∧ (∀ ch, Action.closeSink ch ∉ (readStep c r).2))
  ∧ (cbLookup c.cb (tagOf r) = some .reserved →
       (readStep c r).2 = [Action.dropSilent])
  ∧ (∀ ch, cbLookup c.cb (tagOf r) = some (.opened ch) →
       ((Action.deliver ch r ∈ (readStep c r).2) ↔ hasValid r = true)
     ∧ ((Action.closeSink ch ∈ (readStep c r).2) ↔ hasDone r = true)
     ∧ (readStep c r).2 =
         (if hasDone r then [Action.release (tagOf r)] else [])
           ++ (if hasValid r then [Action.deliver ch r] else [])
           ++ (if hasDone r then [Action.closeSink ch] else []))
  ∧ (∀ rs : List R,
       (readLoop c (rs.map Except.ok)).1.err = c.err
     ∧ Action.notifyClosed ∉ (readLoop c (rs.map Except.ok)).2) := by
  refine ⟨?_, ?_, ?_, fun rs => readLoop_ok_no_teardown rs c⟩
  · intro hl
    have ha : (readStep c r).2 =
        (if hasDone r then [Action.release (tagOf r)] else [])
          ++ [Action.logDrop] := by
      rw [readStep_snd]; unfold readActions; rw [hl]
    refine ⟨ha, ?_, ?_⟩
    · intro ch x hmem
      rw [ha] at hmem
      by_cases hd : hasDone r = true <;> simp [hd] at hmem
    · intro ch hmem
      rw [ha] at hmem
      by_cases hd : hasDone r = true <;> simp [hd] at hmem
  · intro hl
    rw [readStep_snd]
    unfold readActions
    rw [hl]
  · intro ch hl
    have ha : (readStep c r).2 =
        (if hasDone r then [Action.release (tagOf r)] else [])
          ++ (if hasValid r then [Action.deliver ch r] else [])
          ++ (if hasDone r then [Action.closeSink ch] else []) := by
      rw [readStep_snd]; unfold readActions; rw [hl]
    refine ⟨?_, ?_, ha⟩
    · rw [ha]
      by_cases hd : hasDone r = true <;> by_cases hv : hasValid r = true <;>
        simp [hd, hv]
    · rw [ha]
      by_cases hd : hasDone r = true <;> by_cases hv : hasValid r = true <;>
        simp [hd, hv]

/-- Witness for C4 at concrete inputs: a reserved tag drops silently, and
for an open tag the Valid-flagged `rNorm` is delivered. -/
theorem readloop_case_analysis_witness :
    (readStep cRes rDone).2 = [Action.dropSilent] ∧
    ((Action.deliver 7 rNorm ∈ (readStep cOpen7 rNorm).2) ↔ hasValid rNorm = true) :=
  ⟨(readloop_case_analysis cRes rDone).2.1 (by decide),
   ((readloop_case_analysis cOpen7 rNorm).2.2.1 7 (by decide)).1⟩

end Doozer

namespace Doozer

/-- C5 counterexample: a response carrying the known not-a-directory code
together with a detail string is translated to the generic error carrying
the code and detail — not to the typed error — both by the translation
function and through a unary call, refuting the claim that known codes
always yield the typed error. -/
theorem known_code_generic_counterexample :
    Rerr (some rKD) = some (.generic Response_NOTDIR "x") ∧
    errs Response_NOTDIR = some Err.notDir ∧
    Err.generic Response_NOTDIR "x" ≠ Err.notDir ∧
    Option.map (fun p => p.2) (call cFresh 1 woOk (some rKD)) =
      some (Except.error (Err.generic Response_NOTDIR "x")) := by decide

/-- C5 amended: a delivered response with an error code set is translated
as follows — when a detail string is present the result is the generic
error carrying the code and detail, even for known codes; when no detail
is present, known codes yield their typed error and unknown codes the
generic error with empty detail; a sink closed without any delivery yields
the end-of-stream error; and a unary call surfaces exactly this
translation of its single delivery. -/
theorem unary_error_translation (r : R) (code : Int) :
    (Rerr none = some .eof)
  ∧ (∀ e, r.errCode = some code → r.errDetail = none → errs code = some e →
       Rerr (some r) = some e)
  ∧ (∀ det, r.errCode = some code → r.errDetail = some det →
       Rerr (some r) = some (.generic code det))
  ∧ (r.errCode = some code → r.errDetail = none → errs code = none →
       Rerr (some r) = some (.generic code ""))
  ∧ (∀ (c : Conn) (sink : Sink) (o : WriteOracle) (d : Option R) (c' : Conn)
       (res : Except Err R),
       c.err = none → call c sink o d = some (c', res) →
       o.marshalErr = none → o.writeErr = none → res = callResult d) := by
  refine ⟨by simp [Rerr], ?_, ?_, ?_, ?_⟩
  · intro e h1 h2 h3
    simp [Rerr, h1, h2, h3]
  · intro det h1 h2
    simp [Rerr, h1, h2]
  · intro h1 h2 h3
    simp [Rerr, h1, h2, h3]
  · intro c sink o d c' res hc hcall hm hw
    cases hf : findTag c.cb c.n fuel32 with
    | none =>
      have hnone : send c sink o = none := by simp [send, hc, hf]
      unfold call at hcall
      rw [hnone] at hcall
      cases hcall
    | some tg =>
      rw [call_eq_of_ok c sink o d tg hc hf hm hw] at hcall
      simp at hcall
      exact hcall.2.symm

/-- Witness for the amended C5 at concrete inputs: the NOTDIR-with-detail
response through the translation function and through a unary call. -/
theorem unary_error_translation_witness :
    Rerr (some rKD) = some (.generic Response_NOTDIR "x") ∧
    Except.error (Err.generic Response_NOTDIR "x") = callResult (some rKD) :=
  ⟨(unary_error_translation rKD Response_NOTDIR).2.2.1 "x" rfl rfl,
   (unary_error_translation rKD Response_NOTDIR).2.2.2.2 cFresh 1 woOk (some rKD)
     cKD (Except.error (Err.generic Response_NOTDIR "x")) rfl (by decide) rfl rfl⟩

end Doozer

namespace Doozer

/-- C6 counterexample: with the sticky error already set on `cErrC`, the
read loop still processes an inbound frame for open tag 0 — releasing the
tag, delivering the response and closing the sink — so frames continue to
be read and delivered after the sticky error is set, refuting the claim's
no-further-frame-is-read clause. -/
theorem sticky_error_read_counterexample :
    cErrC.err = some (.ioErr "boom") ∧
    (readStep cErrC rDone).2 =
      [Action.release 0, Action.deliver 0 rDone, Action.closeSink 0] := by decide

/-- C6 amended: once the sticky error is set, nothing further is written —
`writeT` returns the sticky error with the state untouched — and every
subsequently started call (`send`, `call`, `events`) fails immediately with
that error without touching the transport or the table; the read loop,
however, does not consult the sticky error: its processing of further
decoded frames is exactly what it would be without the error, until its own
read fails. -/
theorem sticky_error_fail_fast (c : Conn) (e : Err) (h : c.err = some e)
    (sink : Sink) (o : WriteOracle) (d : Option R) (r : R) :
    writeT c o = (c, some e) ∧
    send c sink o = some (c, .error e) ∧
    call c sink o d = some (c, .error e) ∧
    events c sink o = some (c, .error e) ∧
    (readStep c r).2 = (readStep { c with err := none } r).2 := by
  refine ⟨?_, ?_, ?_, ?_, ?_⟩
  · simp [writeT, h]
  · simp [send, h]
  · simp [call, send, h]
  · simp [events, send, h]
  · rw [readStep_snd, readStep_snd]

/-- Witness for the amended C6 at a concrete input: the failed connection
`cErrC` writes nothing and fails a new send immediately. -/
theorem sticky_error_fail_fast_witness :
    writeT cErrC woOk = (cErrC, some (.ioErr "boom")) ∧
    send cErrC 4 woOk = some (cErrC, .error (.ioErr "boom")) :=
  ⟨(sticky_error_fail_fast cErrC (.ioErr "boom") rfl 4 woOk none rDone).1,
   (sticky_error_fail_fast cErrC (.ioErr "boom") rfl 4 woOk none rDone).2.1⟩

end Doozer

namespace Doozer

/-- C7 counterexample: a stream on tag 0 receives an error-bearing response
(`rErrB`, Valid but not Done) followed by a normal response, then the
connection is torn down by a read error.  The read loop delivers both
responses and teardown closes the sink; the forwarding task republishes the
error-bearing response as an Event carrying the error but the stream
continues past it (the error Event is neither terminal nor followed by a
close), and the teardown-induced close ends the output sequence after a
final Event carrying no error — the stream closes silently, with no
terminal error Event, refuting the claim. -/
theorem stream_teardown_silent_counterexample :
    deliveredTo (readLoop cOpen7 [.ok rErrB, .ok rNorm, .error "reset"]).2 7 =
      [rErrB, rNorm] ∧
    Action.closeSink 7 ∈ (readLoop cOpen7 [.ok rErrB, .ok rNorm, .error "reset"]).2 ∧
    forwardEvents [rErrB, rNorm] =
      [⟨0, "", [], 0, some (.generic 99 "boom")⟩, ⟨3, "/a", [1], 1, none⟩] ∧
    (forwardEvents [rErrB, rNorm]).getLast? = some ⟨3, "/a", [1], 1, none⟩ ∧
    Event.Err ⟨3, "/a", [1], 1, none⟩ = none := by decide

/-- C7 amended: the forwarding task republishes each raw response drained
from the sink as exactly one Event, an error-bearing response yielding an
Event carrying that error; when the sink closes, the output sequence closes
after the last republished Event.  A connection torn down mid-stream closes
the sink and hence the output sequence but injects no terminal error Event:
a stream whose deliveries all carried no error closes with every Event
error-free. -/
theorem events_forwarding (rs pre : List R) (r : R) (e : Err) :
    (forwardEvents (pre ++ [r])).getLast? = some (respToEvent r)
  ∧ (Rerr (some r) = some e → (respToEvent r).Err = some e)
  ∧ ((∀ x ∈ rs, Rerr (some x) = none) →
       ∀ ev ∈ forwardEvents rs, ev.Err = none) := by
  refine ⟨?_, ?_, ?_⟩
  · simp [forwardEvents]
  · intro h
    simp [respToEvent, h]
  · intro h ev hev
    simp [forwardEvents] at hev
    obtain ⟨x, hx, rfl⟩ := hev
    simp [respToEvent, h x hx]

/-- Witness for the amended C7 at concrete inputs. -/
theorem events_forwarding_witness :
    (forwardEvents ([rNorm] ++ [rErrB])).getLast? = some (respToEvent rErrB) ∧
    (respToEvent rErrB).Err = some (.generic 99 "boom") ∧
    (respToEvent rNorm).Err = none :=
  ⟨(events_forwarding [rNorm] [rNorm] rErrB (.generic 99 "boom")).1,
   (events_forwarding [rNorm] [rNorm] rErrB (.generic 99 "boom")).2.1 (by decide),
   (events_forwarding [rNorm] [rNorm] rErrB (.generic 99 "boom")).2.2 (by decide)
     (respToEvent rNorm) (by decide)⟩

end Doozer

namespace Doozer

/-- C8: once every dial of every pool address fails, the session enters the
permanent not-connected state: startup (equally, the reconnection attempt
after a connection closes) yields the terminated state, the terminated
state absorbs every further serviced request — including later address
additions — and every current and future caller of call, retry, Watch,
Walk or Getdir receives the no-known-address error. -/
theorem session_pool_exhaustion (dial : String → Bool) (pool : List String)
    (h : ∀ a ∈ pool, dial a = false) (evs : List SessionEvent)
    (kc kr : String → Except Err R) (kw kk kg : String → Except Err WatchHandle) :
    sessionStart dial pool = .terminated
  ∧ sessionRun dial (sessionStart dial pool) evs = .terminated
  ∧ getConn (sessionRun dial (sessionStart dial pool) evs) = none
  ∧ clientCallS (sessionRun dial (sessionStart dial pool) evs) kc = .error .noAddrs
  ∧ clientRetryS (sessionRun dial (sessionStart dial pool) evs) kr = .error .noAddrs
  ∧ clientWatchS (sessionRun dial (sessionStart dial pool) evs) kw = .error .noAddrs
  ∧ clientWalkS (sessionRun dial (sessionStart dial pool) evs) kk = .error .noAddrs
  ∧ clientGetdirS (sessionRun dial (sessionStart dial pool) evs) kg
      = .error .noAddrs := by
  have h0 : sessionStart dial pool = .terminated := by
    unfold sessionStart
    rw [connectPool_exhausted dial pool h]
  have h1 : sessionRun dial (sessionStart dial pool) evs = .terminated := by
    rw [h0]; exact terminated_absorbs dial evs
  refine ⟨h0, h1, ?_, ?_, ?_, ?_, ?_, ?_⟩ <;> rw [h1] <;> rfl

/-- Witness for C8 at concrete inputs: a single unreachable address, with
an address added after exhaustion. -/
theorem session_pool_exhaustion_witness :
    sessionStart (fun _ => false) ["10.0.0.1:8046"] = .terminated ∧
    clientCallS
        (sessionRun (fun _ => false)
          (sessionStart (fun _ => false) ["10.0.0.1:8046"])
          [.addAddr "10.0.0.2:8046", .connClosed])
        (fun _ => .ok rNorm)
      = .error .noAddrs :=
  ⟨(session_pool_exhaustion (fun _ => false) ["10.0.0.1:8046"] (by decide)
      [.addAddr "10.0.0.2:8046", .connClosed] (fun _ => .ok rNorm)
      (fun _ => .ok rNorm) (fun _ => .ok ⟨0, 0⟩) (fun _ => .ok ⟨0, 0⟩)
      (fun _ => .ok ⟨0, 0⟩)).1,
   (session_pool_exhaustion (fun _ => false) ["10.0.0.1:8046"] (by decide)
      [.addAddr "10.0.0.2:8046", .connClosed] (fun _ => .ok rNorm)
      (fun _ => .ok rNorm) (fun _ => .ok ⟨0, 0⟩) (fun _ => .ok ⟨0, 0⟩)
      (fun _ => .ok ⟨0, 0⟩)).2.2.2.1⟩

end Doozer

namespace Doozer

theorem retryGo_cons_nilfetch (a : Attempt) (rest : List Attempt)
    (hf : a.fetched = none) :
    retryGo (a :: rest) = some (.error .noAddrs) := by
  simp only [retryGo]
  rw [hf]

theorem retryGo_cons_some (a : Attempt) (rest : List Attempt) (c c' : Conn)
    (res : Except Err R) (hf : a.fetched = some c)
    (hcall : call c a.sink a.wo a.delivery = some (c', res)) :
    retryGo (a :: rest) =
      if (c'.err.isSome || a.stickyAfter.isSome) = true then retryGo rest
      else some res := by
  simp only [retryGo]
  rw [hf]
  show (match call c a.sink a.wo a.delivery with
    | none => none
    | some (c', res) =>
      if (c'.err.isSome || a.stickyAfter.isSome) = true then retryGo rest
      else some res) = _
  rw [hcall]

theorem retryGo_cons_callnone (a : Attempt) (rest : List Attempt) (c : Conn)
    (hf : a.fetched = some c)
    (hcall : call c a.sink a.wo a.delivery = none) :
    retryGo (a :: rest) = none := by
  simp only [retryGo]
  rw [hf]
  show (match call c a.sink a.wo a.delivery with
    | none => none
    | some (c', res) =>
      if (c'.err.isSome || a.stickyAfter.isSome) = true then retryGo rest
      else some res) = _
  rw [hcall]

/-- C9: retry returns the no-known-address error only when the session
hands it a nil connection (pool exhausted): provided no fetched
connection's sticky error is itself the no-known-address value —
connection errors are transport errors — a no-known-address result implies
some iteration fetched a nil connection.  When the connection reports a
sticky error after the call, the attempt's outcome is discarded and the
request reissued on the next fetched connection, so an attempt failing
solely by connection loss is invisible whenever a later attempt succeeds. -/
theorem retry_spec (atts : List Attempt) :
    ((∀ a ∈ atts, ∀ c, a.fetched = some c → c.err ≠ some Err.noAddrs) →
       retryGo atts = some (.error .noAddrs) → ∃ a ∈ atts, a.fetched = none)
  ∧ (∀ (a : Attempt) (rest : List Attempt) (c c' : Conn) (res : Except Err R),
       a.fetched = some c → call c a.sink a.wo a.delivery = some (c', res) →
       (c'.err.isSome || a.stickyAfter.isSome) = true →
       retryGo (a :: rest) = retryGo rest)
  ∧ (∀ (a : Attempt) (rest : List Attempt) (c c' : Conn) (res : Except Err R)
       (r : R),
       a.fetched = some c → call c a.sink a.wo a.delivery = some (c', res) →
       (c'.err.isSome || a.stickyAfter.isSome) = true →
       retryGo rest = some (.ok r) → retryGo (a :: rest) = some (.ok r)) := by
  refine ⟨?_, ?_, ?_⟩
  · induction atts with
    | nil => intro _ hr; cases hr
    | cons a rest ih =>
      intro hinv hr
      cases hf : a.fetched with
      | none => exact ⟨a, by simp, hf⟩
      | some c =>
        cases hcall : call c a.sink a.wo a.delivery with
        | none => rw [retryGo_cons_callnone a rest c hf hcall] at hr; cases hr
        | some p =>
          obtain ⟨c', res⟩ := p
          rw [retryGo_cons_some a rest c c' res hf hcall] at hr
          by_cases hcond : (c'.err.isSome || a.stickyAfter.isSome) = true
          · rw [if_pos hcond] at hr
            obtain ⟨x, hx, hxf⟩ := ih (fun b hb => hinv b (by simp [hb])) hr
            exact ⟨x, by simp [hx], hxf⟩
          · rw [if_neg hcond] at hr
            cases hr
            exact absurd rfl
              (call_error_ne_noAddrs c a.sink a.wo a.delivery c' Err.noAddrs
                (hinv a (by simp) c hf) hcall)
  · intro a rest c c' res hf hcall hcond
    rw [retryGo_cons_some a rest c c' res hf hcall, if_pos hcond]
  · intro a rest c c' res r hf hcall hcond hrest
    rw [retryGo_cons_some a rest c c' res hf hcall, if_pos hcond]
    exact hrest

/-- Witness for C9 at concrete inputs: no-known-address arises from a nil
fetch, and a write-failed attempt is invisible before a succeeding one. -/
theorem retry_spec_witness :
    (∃ a ∈ [aNil], a.fetched = none) ∧
    retryGo [aFail, aOk] = some (.ok rNorm) :=
  ⟨(retry_spec [aNil]).1
      (by intro a ha c hc; simp [List.mem_singleton] at ha; subst ha;
          simp [aNil] at hc)
      (by decide),
   (retry_spec [aFail]).2.2 aFail [aOk] cFresh
      ⟨some (.ioErr "pipe"), 0, [], "", false⟩ (.error (.ioErr "pipe")) rNorm
      rfl (by decide) (by decide) (by decide)⟩

end Doozer
